import Mathlib

/-!
Verification development for the multi-agent orchestration core of the
sillytavern-multi-agent extension.

The TypeScript sources are shallowly embedded as executable Lean functions:

* `src/src/agents/parser.ts`   → `extractXmlTags`, `stripXmlTags`, `parserNode`
* `src/src/agents/narrator.ts` → `extractCharacters`, `narratorNode`
* `src/src/agents/director.ts` → `directorNode`, `directorEvaluateNode`,
  `simpleCompose`, `composerNode`
* `src/src/agents/persona.ts`  → `generatePersonaResponse`, `personaNode`
* `src/src/graph.ts`           → `routeAfterEvaluate`, `personaEvalLoop`,
  `runFromDirector`
* `src/src/state.ts`           → `GraphState`, `GraphUpdate`, `applyUpdate`
  (the per-channel LangGraph reducers)

External capabilities (the LLM invocation, `JSON.parse` of model replies, the
table snapshot, prompt templates) are abstracted as explicit parameters, as in
the source they are opaque collaborators.  JavaScript `Record<string, T>`
objects are modelled as insertion-ordered association lists with unique keys
(`upsert`), matching JS object key ordering for non-numeric string keys.
JavaScript strings are modelled as Lean strings (lists of chars); the ASCII
subset of the JS whitespace class is used for `\s` and `trim`.
-/

/-- ASCII subset of the JavaScript whitespace class used by `\s` and
`String.prototype.trim`. -/
def isJsWhitespace (c : Char) : Bool :=
  c == ' ' || c == '\t' || c == '\n' || c == '\r' || c == '\x0b' || c == '\x0c'

/-- JavaScript regex word character class `\w` = `[A-Za-z0-9_]`. -/
def isWordChar (c : Char) : Bool :=
  ('a' ≤ c && c ≤ 'z') || ('A' ≤ c && c ≤ 'Z') || ('0' ≤ c && c ≤ '9') || c == '_'

/-- `String.prototype.trim` on the underlying character list. -/
def jsTrimList (cs : List Char) : List Char :=
  ((cs.dropWhile isJsWhitespace).reverse.dropWhile isJsWhitespace).reverse

/-- `String.prototype.trim`. -/
def jsTrim (s : String) : String := String.mk (jsTrimList s.data)

/-- JavaScript `a || b` for strings (the empty string is falsy). -/
def jsOr (a b : String) : String := if a == "" then b else a

/-- JavaScript `arr.slice(-n)`: the last `n` elements (the whole list when it
is shorter). -/
def jsSliceLast (n : Nat) (l : List α) : List α := l.drop (l.length - n)

/-- JavaScript object assignment `obj[k] = v` on an insertion-ordered record:
replace the value when the key exists, otherwise append the new entry. -/
def upsert (r : List (String × α)) (k : String) (v : α) : List (String × α) :=
  if r.any (fun p => p.1 == k) then
    r.map (fun p => if p.1 == k then (k, v) else p)
  else r ++ [(k, v)]

/-- JavaScript `obj[k] || ""` on a record of strings. -/
def recordGet (r : List (String × String)) (k : String) : String :=
  ((r.find? (fun p => p.1 == k)).map Prod.snd).getD ""

/-- Whether `needle` occurs at the start of `hay`. -/
def headMatches : List Char → List Char → Bool
  | [], _ => true
  | _ :: _, [] => false
  | a :: as, b :: bs => a == b && headMatches as bs

/-- JavaScript `hay.includes(needle)` (substring test). -/
def containsSub (hay needle : List Char) : Bool :=
  match hay with
  | [] => needle.isEmpty
  | c :: t => headMatches needle (c :: t) || containsSub t needle

/-! ## Tag scanning (src/src/agents/parser.ts)

`extractXmlTags` uses the regex `<(\w+)>([\s\S]*?)<\/\1>` (backreferenced
closing tag, lazy middle) in a global `exec` loop; `stripXmlTags` applies the
global replaces `<\w+>[\s\S]*?<\/\w+>` and then `<\w+>` with the empty string
and trims.  Each is embedded as a left-to-right scanner: at each index we try
to match the pattern (leftmost match), on success we continue after the match,
otherwise we advance one character — exactly the semantics of a JS global
regex with these patterns (no empty matches arise).  The scanners take a fuel
argument equal to the input length; fuel only ever decreases by one while the
remaining input shrinks by at least one, so the fuel never runs out
(`stripSpansAux_fuel` and friends certify fuel irrelevance). -/

/-- Match `<(\w+)>` at the start: returns the tag name and the rest after
`>`. -/
def matchOpenTag (cs : List Char) : Option (List Char × List Char) :=
  match cs with
  | '<' :: rest =>
    if (rest.takeWhile isWordChar).isEmpty then none
    else
      match rest.drop (rest.takeWhile isWordChar).length with
      | '>' :: rest2 => some (rest.takeWhile isWordChar, rest2)
      | _ => none
  | _ => none

/-- Match the backreferenced closing tag `<\/name>` at the start: returns the
rest after `>`. -/
def matchCloseNamed (name : List Char) (cs : List Char) : Option (List Char) :=
  match cs with
  | '<' :: '/' :: rest =>
    if rest.take name.length == name then
      match rest.drop name.length with
      | '>' :: rest2 => some rest2
      | _ => none
    else none
  | _ => none

/-- Match any closing tag `<\/\w+>` at the start: returns the rest after
`>`. -/
def matchCloseAny (cs : List Char) : Option (List Char) :=
  match cs with
  | '<' :: '/' :: rest =>
    if (rest.takeWhile isWordChar).isEmpty then none
    else
      match rest.drop (rest.takeWhile isWordChar).length with
      | '>' :: rest2 => some rest2
      | _ => none
  | _ => none

/-- Lazy middle of `([\s\S]*?)<\/name>`: the shortest middle up to the
earliest occurrence of the named closing tag.  Returns the middle and the rest
after the closing tag. -/
def findCloseNamed (name : List Char) : List Char → Option (List Char × List Char)
  | [] => none
  | c :: rest =>
    match matchCloseNamed name (c :: rest) with
    | some rest2 => some ([], rest2)
    | none =>
      match findCloseNamed name rest with
      | some (mid, rest2) => some (c :: mid, rest2)
      | none => none

/-- Earliest occurrence of any closing tag `<\/\w+>`: returns the rest after
it. -/
def findCloseAnyFrom : List Char → Option (List Char)
  | [] => none
  | c :: rest =>
    match matchCloseAny (c :: rest) with
    | some rest2 => some rest2
    | none => findCloseAnyFrom rest

/-- Global `exec` loop of `<(\w+)>([\s\S]*?)<\/\1>`: the ordered list of
(name, raw middle) matches. -/
def extractLoopAux : Nat → List Char → List (List Char × List Char)
  | 0, _ => []
  | _ + 1, [] => []
  | fuel + 1, c :: rest =>
    match matchOpenTag (c :: rest) with
    | some (name, afterOpen) =>
      match findCloseNamed name afterOpen with
      | some (mid, afterClose) => (name, mid) :: extractLoopAux fuel afterClose
      | none => extractLoopAux fuel rest
    | none => extractLoopAux fuel rest

/-- `extractXmlTags` from src/src/agents/parser.ts: collect `<tag>…</tag>`
spans into a record, trimming each body; a later occurrence of the same tag
name overwrites the earlier one. -/
def extractXmlTags (content : String) : List (String × String) :=
  (extractLoopAux content.data.length content.data).foldl
    (fun acc p => upsert acc (String.mk p.1) (jsTrim (String.mk p.2))) []

/-- Global replace of `<\w+>[\s\S]*?<\/\w+>` with the empty string. -/
def stripSpansAux : Nat → List Char → List Char
  | 0, cs => cs
  | _ + 1, [] => []
  | fuel + 1, c :: rest =>
    match matchOpenTag (c :: rest) with
    | some (_, afterOpen) =>
      match findCloseAnyFrom afterOpen with
      | some afterClose => stripSpansAux fuel afterClose
      | none => c :: stripSpansAux fuel rest
    | none => c :: stripSpansAux fuel rest

/-- Global replace of `<\w+>` with the empty string. -/
def stripOpensAux : Nat → List Char → List Char
  | 0, cs => cs
  | _ + 1, [] => []
  | fuel + 1, c :: rest =>
    match matchOpenTag (c :: rest) with
    | some (_, rest2) => stripOpensAux fuel rest2
    | none => c :: stripOpensAux fuel rest

/-- `stripXmlTags` from src/src/agents/parser.ts: remove complete tag spans,
then remaining opening tags, then trim. -/
def stripXmlTags (content : String) : String :=
  let p1 := stripSpansAux content.data.length content.data
  jsTrim (String.mk (stripOpensAux p1.length p1))

/-- Whether a text still contains tag markup: an occurrence of an opening tag
`<\w+>` or a closing tag `<\/\w+>` at any position. -/
def hasTagMarkup : List Char → Bool
  | [] => false
  | c :: rest =>
    (matchOpenTag (c :: rest)).isSome || (matchCloseAny (c :: rest)).isSome ||
      hasTagMarkup rest


/-! ## Data model (src/src/state.ts) -/

/-- Character record. -/
structure Character where
  name : String
  present : Bool
  lastPosition : String
  description : Option String := none
deriving DecidableEq

/-- WorldState maintained by the Narrator. -/
structure WorldState where
  scene : String
  time : String
  characters : List (String × Character)
  recentEvents : List String
deriving DecidableEq

/-- One raw `{role, content}` message (also used for chat-history entries). -/
structure RawMessage where
  role : String
  content : String
deriving DecidableEq

/-- Output of one parsed run input.  The external table snapshot is opaque. -/
structure ParsedInput where
  presetInstructions : List (String × String)
  characterSettings : List (String × String)
  chatHistory : List RawMessage
  userInput : String
  tableData : Option Unit := none
deriving DecidableEq

/-- One persona's output. -/
structure PersonaOutput where
  characterName : String
  content : String
  formatValid : Bool
deriving DecidableEq

/-- The shared LangGraph state record. -/
structure GraphState where
  rawMessages : List RawMessage := []
  parsedInput : Option ParsedInput := none
  worldState : Option WorldState := none
  activeCharacters : List String := []
  characterContexts : List (String × String) := []
  personaOutputs : List PersonaOutput := []
  formatCheckPassed : Bool := false
  retryCount : Nat := 0
  finalOutput : String := ""
  error : Option String := none
deriving DecidableEq

/-- A partial state update returned by one node (`Partial<GraphState>` in the
source): `none` means the channel is absent from the update. -/
structure GraphUpdate where
  parsedInput : Option ParsedInput := none
  worldState : Option (Option WorldState) := none
  activeCharacters : Option (List String) := none
  characterContexts : Option (List (String × String)) := none
  personaOutputs : Option (List PersonaOutput) := none
  formatCheckPassed : Option Bool := none
  retryCount : Option Nat := none
  finalOutput : Option String := none
  error : Option String := none
deriving DecidableEq

/-- Apply one node's partial update with the per-channel reducers of
`GraphStateAnnotation` (src/src/state.ts): every channel replaces its old
value, except `worldState` whose reducer is `(x, y) => y ?? x` (keep the old
value when the update carries `null`) and `personaOutputs` whose reducer is
`(x, y) => [...x, ...y]` (append). -/
def applyUpdate (s : GraphState) (u : GraphUpdate) : GraphState where
  rawMessages := s.rawMessages
  parsedInput := match u.parsedInput with
    | some p => some p
    | none => s.parsedInput
  worldState := match u.worldState with
    | some (some w) => some w
    | some none => s.worldState
    | none => s.worldState
  activeCharacters := u.activeCharacters.getD s.activeCharacters
  characterContexts := u.characterContexts.getD s.characterContexts
  personaOutputs := s.personaOutputs ++ u.personaOutputs.getD []
  formatCheckPassed := u.formatCheckPassed.getD s.formatCheckPassed
  retryCount := u.retryCount.getD s.retryCount
  finalOutput := u.finalOutput.getD s.finalOutput
  error := match u.error with
    | some e => some e
    | none => s.error

/-- Outcome of one abstract LLM invocation: the reply text coerced to a
string (`typeof response.content === "string" ? response.content : ""`), or a
thrown error. -/
inductive InvokeOutcome
  | success (content : String)
  | failure

/-! ## Parser (src/src/agents/parser.ts) -/

/-- Preset-instruction tag catalog. -/
def PRESET_TAGS : List String :=
  ["core_features", "fiction_style", "Writing_style", "additional_constraints",
   "content_constraints", "explicit_guidelines"]

/-- Character-setting tag catalog. -/
def CHARACTER_TAGS : List String := ["info_settings", "char", "user"]

/-- History tag catalog. -/
def HISTORY_TAGS : List String := ["Interaction_history", "chat_history"]

/-- Accumulator of the parser's message loop. -/
structure ParseAcc where
  presetInstructions : List (String × String) := []
  characterSettings : List (String × String) := []
  chatHistory : List RawMessage := []
deriving DecidableEq

/-- Classify one extracted tag into the three catalogs. -/
def classifyTag (acc : ParseAcc) (p : String × String) : ParseAcc :=
  if PRESET_TAGS.contains p.1 then
    { acc with presetInstructions := upsert acc.presetInstructions p.1 p.2 }
  else if CHARACTER_TAGS.contains p.1 then
    { acc with characterSettings := upsert acc.characterSettings p.1 p.2 }
  else if HISTORY_TAGS.contains p.1 then
    { acc with chatHistory := acc.chatHistory ++ [⟨"history", p.2⟩] }
  else acc

/-- Body of the parser's per-message loop: classify the message's tags, then
append the stripped text of a user/assistant message to the chat history when
it is non-empty. -/
def processMessage (acc : ParseAcc) (msg : RawMessage) : ParseAcc :=
  let acc1 := (extractXmlTags msg.content).foldl classifyTag acc
  if msg.role == "assistant" || msg.role == "user" then
    if stripXmlTags msg.content == "" then acc1
    else { acc1 with chatHistory := acc1.chatHistory ++ [⟨msg.role, stripXmlTags msg.content⟩] }
  else acc1

/-- The last `role = "user"` message (scanning from the end) whose stripped
content is non-empty, else the empty string. -/
def lastUserInput (msgs : List RawMessage) : String :=
  match msgs.reverse.find? (fun m => m.role == "user" && stripXmlTags m.content != "") with
  | some m => stripXmlTags m.content
  | none => ""

/-- `parserNode`: parse the raw messages into a `ParsedInput`.  The external
table snapshot read (`getTableData`) is an opaque parameter. -/
def parserNode (tableData : Option Unit) (s : GraphState) : GraphUpdate :=
  { parsedInput := some
      { presetInstructions := (s.rawMessages.foldl processMessage {}).presetInstructions
        characterSettings := (s.rawMessages.foldl processMessage {}).characterSettings
        chatHistory := (s.rawMessages.foldl processMessage {}).chatHistory
        userInput := lastUserInput s.rawMessages
        tableData := tableData } }

/-! ## Narrator (src/src/agents/narrator.ts) -/

/-- Match of `name[:\s]*["']?(\w+)["']?` (case-insensitive `name`) at the
start of the input; returns the captured word. -/
def matchNameAt (cs : List Char) : Option (List Char) :=
  match cs with
  | n :: a :: m :: e :: rest =>
    if n.toLower == 'n' && a.toLower == 'a' && m.toLower == 'm' && e.toLower == 'e' then
      match rest.dropWhile (fun c => c == ':' || isJsWhitespace c) with
      | [] => none
      | q :: r2 =>
        if q == '"' || q == '\x27' then
          if (r2.takeWhile isWordChar).isEmpty then none
          else some (r2.takeWhile isWordChar)
        else
          if ((q :: r2).takeWhile isWordChar).isEmpty then none
          else some ((q :: r2).takeWhile isWordChar)
    else none
  | _ => none

/-- First match of the character-name pattern in the input. -/
def findNameMatch : List Char → Option (List Char)
  | [] => none
  | c :: rest =>
    match matchNameAt (c :: rest) with
    | some w => some w
    | none => findNameMatch rest

/-- `extractCharacters`: extract at most one character from
`characterSettings.char || characterSettings.info_settings || ""` by the
`name: X` pattern. -/
def extractCharacters (characterSettings : List (String × String)) : List (String × Character) :=
  match findNameMatch (jsOr (recordGet characterSettings "char")
      (recordGet characterSettings "info_settings")).data with
  | some w => [(String.mk w, { name := String.mk w, present := true, lastPosition := "当前场景" })]
  | none => []

/-- JavaScript object spread `{...a, ...b}` on insertion-ordered records. -/
def recordMerge (a b : List (String × α)) : List (String × α) :=
  b.foldl (fun acc p => upsert acc p.1 p.2) a

/-- Greedy regex `o[\s\S]*c` (first delimiter to last delimiter), used with
braces by the Narrator and with square brackets by the Director to locate the
JSON substring of a model reply. -/
def extractDelimitedSpan (o c : Char) (s : String) : Option String :=
  match s.data.dropWhile (fun x => x != o) with
  | [] => none
  | _ :: tail =>
    match tail.reverse.dropWhile (fun x => x != c) with
    | [] => none
    | _ :: revMid => some (String.mk (o :: (revMid.reverse ++ [c])))

/-- Abstract collaborators of the Narrator: whether a model is configured,
the outcome of its invocation, and `JSON.parse` of the extracted brace span
decoded as a `WorldState` (`none` when `JSON.parse` throws). -/
structure NarratorEnv where
  configured : Bool
  invoke : InvokeOutcome
  parseWorld : String → Option WorldState

/-- `narratorNode`: rule-based world-state update when no model is
configured, otherwise wholesale replacement by the parsed model reply, keeping
the prior state on invocation or parse failure. -/
def narratorNode (env : NarratorEnv) (s : GraphState) : GraphUpdate :=
  match s.parsedInput with
  | none => { error := some "Parser 未完成，无法执行 Narrator" }
  | some pi =>
    if !env.configured then
      { worldState := some (some
          { scene := jsOr (match s.worldState with
              | some w => w.scene
              | none => "") "未知场景"
            time := jsOr (match s.worldState with
              | some w => w.time
              | none => "") "未知时间"
            characters := recordMerge (match s.worldState with
              | some w => w.characters
              | none => []) (extractCharacters pi.characterSettings)
            recentEvents := jsSliceLast 10 ((match s.worldState with
              | some w => w.recentEvents
              | none => []) ++
              ["用户输入: " ++ String.mk (pi.userInput.data.take 50) ++ "..."]) }) }
    else
      match env.invoke with
      | InvokeOutcome.failure => { worldState := some s.worldState }
      | InvokeOutcome.success content =>
        match extractDelimitedSpan '\x7b' '\x7d' content with
        | some jsonStr =>
          match env.parseWorld jsonStr with
          | some w => { worldState := some (some w) }
          | none => { worldState := some s.worldState }
        | none => { worldState := some s.worldState }

/-! ## Director (src/src/agents/director.ts) -/

/-- Names of the present characters, in the record's insertion order
(`Object.values(worldState.characters).filter(c => c.present).map(c => c.name)`). -/
def presentCharacterNames (w : WorldState) : List String :=
  ((w.characters.map Prod.snd).filter (fun c => c.present)).map (fun c => c.name)

/-- `buildCharacterContext`: the private context of one selected character
(information-visibility boundary). -/
def buildCharacterContext (characterName : String) (pi : ParsedInput) (w : WorldState) : String :=
  String.intercalate "\n\n"
    (["## 你是 " ++ characterName, "## 当前场景: " ++ w.scene, "## 时间: " ++ w.time] ++
     (if (((w.characters.map Prod.snd).filter
            (fun c => c.present && c.name != characterName)).map (fun c => c.name)).isEmpty
      then []
      else ["## 在场的其他人: " ++ String.intercalate ", "
            (((w.characters.map Prod.snd).filter
               (fun c => c.present && c.name != characterName)).map (fun c => c.name))]) ++
     (if w.recentEvents.isEmpty then []
      else ["## 最近发生的事:", String.intercalate "\n" (jsSliceLast 5 w.recentEvents)]) ++
     ["## 用户说/做:", pi.userInput])

/-- Contexts record for the selected characters. -/
def buildContexts (chars : List String) (pi : ParsedInput) (w : WorldState) :
    List (String × String) :=
  chars.foldl (fun acc c => upsert acc c (buildCharacterContext c pi w)) []

/-- Abstract collaborators of the Director: whether a model is configured,
the invocation outcome, and `JSON.parse` of the extracted bracket span decoded
as a string array (`none` when `JSON.parse` throws). -/
structure DirectorEnv where
  configured : Bool
  invoke : InvokeOutcome
  parseArr : String → Option (List String)

/-- `directorNode`: select the speaking characters and build their contexts.
With no present characters, an empty selection is returned before any model
use; with no model, all present characters are selected; with a model, the
parsed reply is intersected with the present set, and every failure path
degrades to selecting all present characters. -/
def directorNode (env : DirectorEnv) (s : GraphState) : GraphUpdate :=
  match s.parsedInput, s.worldState with
  | some pi, some w =>
    if (presentCharacterNames w).isEmpty then
      { activeCharacters := some [], characterContexts := some [] }
    else if !env.configured then
      { activeCharacters := some (presentCharacterNames w)
        characterContexts := some (buildContexts (presentCharacterNames w) pi w) }
    else
      match env.invoke with
      | InvokeOutcome.failure =>
        { activeCharacters := some (presentCharacterNames w)
          characterContexts := some (buildContexts (presentCharacterNames w) pi w) }
      | InvokeOutcome.success content =>
        match extractDelimitedSpan '[' ']' content with
        | none =>
          { activeCharacters := some (presentCharacterNames w)
            characterContexts := some (buildContexts (presentCharacterNames w) pi w) }
        | some span =>
          match env.parseArr span with
          | none =>
            { activeCharacters := some (presentCharacterNames w)
              characterContexts := some (buildContexts (presentCharacterNames w) pi w) }
          | some names =>
            { activeCharacters := some (names.filter
                (fun c => (presentCharacterNames w).contains c))
              characterContexts := some (buildContexts (names.filter
                (fun c => (presentCharacterNames w).contains c)) pi w) }
  | _, _ => { error := some "缺少必要状态，无法执行 Director" }

/-! ## Persona fan-out (src/src/agents/persona.ts) -/

/-- `generatePersonaResponse` for one character.  `configured` models whether
`personaModelConfig` is set; `invoke` abstracts the per-character model call
(the prompt is built from the character's name, context and preset
instructions, so the outcome is indexed by the character name). -/
def generatePersonaResponse (configured : Bool) (invoke : String → InvokeOutcome)
    (characterName _context : String) (_presetInstructions : List (String × String)) :
    PersonaOutput :=
  if !configured then
    { characterName := characterName
      content := "[" ++ characterName ++ " 无法回复 - 模型未配置]"
      formatValid := false }
  else
    match invoke characterName with
    | InvokeOutcome.success content =>
      { characterName := characterName, content := content
        formatValid := decide (0 < content.length) }
    | InvokeOutcome.failure =>
      { characterName := characterName
        content := "[" ++ characterName ++ " 生成出错]"
        formatValid := false }

/-- `personaNode`: map `generatePersonaResponse` over `activeCharacters`
(`Promise.all` keeps the order of the mapped promises). -/
def personaNode (configured : Bool) (invoke : String → InvokeOutcome) (s : GraphState) :
    GraphUpdate :=
  match s.parsedInput with
  | none => { personaOutputs := some [] }
  | some pi =>
    if s.activeCharacters.isEmpty then { personaOutputs := some [] }
    else
      { personaOutputs := some (s.activeCharacters.map (fun charName =>
          generatePersonaResponse configured invoke charName
            (recordGet s.characterContexts charName) pi.presetInstructions)) }

/-! ## Evaluator and Composer (src/src/agents/director.ts) -/

/-- Retry bound (`const maxRetries = 3`). -/
def maxRetries : Nat := 3

/-- The format gate of `directorEvaluateNode`: every output must have content
that is non-empty and does not trim to the empty string. -/
def evaluateAllValid (outputs : List PersonaOutput) : Bool :=
  outputs.all (fun o => !(o.content == "" || jsTrim o.content == ""))

/-- `directorEvaluateNode`: pass when all outputs are valid; at the retry
bound force `formatCheckPassed = true`; otherwise fail, increment
`retryCount` and return `personaOutputs: []`. -/
def directorEvaluateNode (s : GraphState) : GraphUpdate :=
  if evaluateAllValid s.personaOutputs then { formatCheckPassed := some true }
  else if s.retryCount ≥ maxRetries then { formatCheckPassed := some true }
  else
    { formatCheckPassed := some false
      retryCount := some (s.retryCount + 1)
      personaOutputs := some [] }

/-- `simpleCompose`: keep the `formatValid` outputs with truthy content,
prefix a bracketed name tag when the content does not contain the character's
name, and join with the fixed separator. -/
def simpleCompose (outputs : List PersonaOutput) : String :=
  String.intercalate "\n\n---\n\n"
    ((outputs.filter (fun o => o.formatValid && o.content != "")).map (fun o =>
      if containsSub o.content.data o.characterName.data then o.content
      else "【" ++ o.characterName ++ "】\n" ++ o.content))

/-- Abstract collaborators of the Composer. -/
structure ComposerEnv where
  configured : Bool
  invoke : InvokeOutcome

/-- `composerNode`: the fixed sentinel for an empty `personaOutputs`, the
deterministic concatenation when no model is configured, and otherwise the
model reply with fallback to the concatenation on empty reply or failure. -/
def composerNode (env : ComposerEnv) (s : GraphState) : GraphUpdate :=
  if s.personaOutputs.isEmpty then { finalOutput := some "[没有角色回复]" }
  else if !env.configured then { finalOutput := some (simpleCompose s.personaOutputs) }
  else
    match env.invoke with
    | InvokeOutcome.success content =>
      if content != "" then { finalOutput := some content }
      else { finalOutput := some (simpleCompose s.personaOutputs) }
    | InvokeOutcome.failure => { finalOutput := some (simpleCompose s.personaOutputs) }

/-! ## Graph wiring (src/src/graph.ts) -/

/-- Target of the conditional edge after the Evaluator. -/
inductive RouteTarget
  | composer
  | persona
deriving DecidableEq

/-- `routeAfterEvaluate`: to the Composer when the format check passed, else
back to the Persona fan-out. -/
def routeAfterEvaluate (s : GraphState) : RouteTarget :=
  if s.formatCheckPassed then RouteTarget.composer else RouteTarget.persona

/-- The persona → evaluate loop with the conditional back-edge.  `gen` gives
the per-attempt, per-character invocation outcome (attempt `n` is the `n`-th
execution of the fan-out in this run). -/
def personaEvalLoop (configured : Bool) (gen : Nat → String → InvokeOutcome)
    (attempt : Nat) (s : GraphState) : GraphState :=
  let s1 := applyUpdate s (personaNode configured (gen attempt) s)
  let s2 := applyUpdate s1 (directorEvaluateNode s1)
  match hroute : routeAfterEvaluate s2 with
  | RouteTarget.composer => s2
  | RouteTarget.persona => personaEvalLoop configured gen (attempt + 1) s2
termination_by maxRetries + 1 - s.retryCount
decreasing_by
  replace hroute : routeAfterEvaluate
      (applyUpdate (applyUpdate s (personaNode configured (gen attempt) s))
        (directorEvaluateNode (applyUpdate s (personaNode configured (gen attempt) s))))
      = RouteTarget.persona := hroute
  have hpr : (personaNode configured (gen attempt) s).retryCount = none := by
    unfold personaNode
    rcases s.parsedInput with _ | pi
    · rfl
    · dsimp only
      split <;> rfl
  simp only [routeAfterEvaluate, directorEvaluateNode, applyUpdate, hpr, Option.getD_none,
    Option.getD_some] at hroute ⊢
  by_cases h1 : evaluateAllValid
      (s.personaOutputs ++ (personaNode configured (gen attempt) s).personaOutputs.getD [])
  · simp [h1] at hroute
  · by_cases h2 : maxRetries ≤ s.retryCount
    · simp [h1, h2] at hroute
    · simp only [if_neg h1, if_neg h2] at hroute ⊢
      simp at hroute ⊢
      omega

/-- The post-Director tail of a run: Director, then the persona/evaluate
retry loop, then the Composer (the terminal node). -/
def runFromDirector (dEnv : DirectorEnv) (personaConfigured : Bool)
    (gen : Nat → String → InvokeOutcome) (cEnv : ComposerEnv) (s : GraphState) : GraphState :=
  applyUpdate (personaEvalLoop personaConfigured gen 0 (applyUpdate s (directorNode dEnv s)))
    (composerNode cEnv
      (personaEvalLoop personaConfigured gen 0 (applyUpdate s (directorNode dEnv s))))

/-! ## Scanner length and fuel lemmas -/

theorem length_takeWhile_le_self (p : α → Bool) (l : List α) :
    (l.takeWhile p).length ≤ l.length := by
  induction l with
  | nil => simp
  | cons a t ih =>
    rw [List.takeWhile_cons]
    by_cases h : p a
    · simpa [h] using ih
    · simp [h]

theorem length_takeWhile_pos {p : α → Bool} {l : List α}
    (h : (l.takeWhile p).isEmpty = false) : 1 ≤ (l.takeWhile p).length := by
  rcases ht : l.takeWhile p with _ | _
  · rw [ht] at h; simp at h
  · simp [ht]

theorem matchOpenTag_length {cs name after : List Char}
    (h : matchOpenTag cs = some (name, after)) : after.length + 3 ≤ cs.length := by
  unfold matchOpenTag at h
  split at h
  · rename_i rest
    split at h
    · exact absurd h (by simp)
    · rename_i hne
      split at h
      · rename_i rest2 hd
        simp only [Option.some.injEq, Prod.mk.injEq] at h
        obtain ⟨-, rfl⟩ := h
        have hlen := congrArg List.length hd
        have h1 : (rest.takeWhile isWordChar).length ≤ rest.length :=
          length_takeWhile_le_self isWordChar rest
        have h2 : 1 ≤ (rest.takeWhile isWordChar).length :=
          length_takeWhile_pos (by revert hne; cases (rest.takeWhile isWordChar).isEmpty <;> simp)
        simp only [List.length_drop, List.length_cons] at hlen ⊢
        omega
      · exact absurd h (by simp)
  · exact absurd h (by simp)

theorem matchCloseAny_length {cs after : List Char}
    (h : matchCloseAny cs = some after) : after.length + 4 ≤ cs.length := by
  unfold matchCloseAny at h
  split at h
  · rename_i rest
    split at h
    · exact absurd h (by simp)
    · rename_i hne
      split at h
      · rename_i rest2 hd
        simp only [Option.some.injEq] at h
        subst h
        have hlen := congrArg List.length hd
        have h1 : (rest.takeWhile isWordChar).length ≤ rest.length :=
          length_takeWhile_le_self isWordChar rest
        have h2 : 1 ≤ (rest.takeWhile isWordChar).length :=
          length_takeWhile_pos (by revert hne; cases (rest.takeWhile isWordChar).isEmpty <;> simp)
        simp only [List.length_drop, List.length_cons] at hlen ⊢
        omega
      · exact absurd h (by simp)
  · exact absurd h (by simp)

theorem matchCloseNamed_length {name cs after : List Char}
    (h : matchCloseNamed name cs = some after) : after.length + 3 ≤ cs.length := by
  unfold matchCloseNamed at h
  split at h
  · rename_i rest
    split at h
    · split at h
      · rename_i rest2 hd
        simp only [Option.some.injEq] at h
        subst h
        have hlen := congrArg List.length hd
        simp only [List.length_drop, List.length_cons] at hlen ⊢
        omega
      · exact absurd h (by simp)
    · exact absurd h (by simp)
  · exact absurd h (by simp)

theorem findCloseNamed_length {name cs mid after : List Char}
    (h : findCloseNamed name cs = some (mid, after)) : after.length ≤ cs.length := by
  induction cs generalizing mid after with
  | nil => simp [findCloseNamed] at h
  | cons c rest ih =>
    rw [findCloseNamed] at h
    split at h
    · rename_i rest2 hm
      simp only [Option.some.injEq, Prod.mk.injEq] at h
      obtain ⟨-, rfl⟩ := h
      have := matchCloseNamed_length hm
      simp only [List.length_cons] at this ⊢
      omega
    · split at h
      · rename_i mid2 rest2 hf
        simp only [Option.some.injEq, Prod.mk.injEq] at h
        obtain ⟨-, rfl⟩ := h
        have := ih hf
        simp only [List.length_cons]
        omega
      · exact absurd h (by simp)

theorem findCloseAnyFrom_length {cs after : List Char}
    (h : findCloseAnyFrom cs = some after) : after.length ≤ cs.length := by
  induction cs generalizing after with
  | nil => simp [findCloseAnyFrom] at h
  | cons c rest ih =>
    rw [findCloseAnyFrom] at h
    split at h
    · rename_i rest2 hm
      simp only [Option.some.injEq] at h
      subst h
      have := matchCloseAny_length hm
      simp only [List.length_cons] at this ⊢
      omega
    · have := ih h
      simp only [List.length_cons]
      omega

theorem stripSpansAux_fuel : ∀ (f g : Nat) (cs : List Char), cs.length ≤ f →
    cs.length ≤ g → stripSpansAux f cs = stripSpansAux g cs := by
  intro f
  induction f using Nat.strong_induction_on with
  | _ f ih =>
    intro g cs hf hg
    rcases cs with _ | ⟨c, rest⟩
    · cases f <;> cases g <;> rfl
    · rcases f with _ | f
      · simp at hf
      · rcases g with _ | g
        · simp at hg
        · rw [stripSpansAux, stripSpansAux]
          simp only [List.length_cons] at hf hg
          rcases hmo : matchOpenTag (c :: rest) with _ | ⟨name, afterOpen⟩
          · dsimp only
            rw [ih f (by omega) g rest (by omega) (by omega)]
          · have hopen := matchOpenTag_length hmo
            simp only [List.length_cons] at hopen
            dsimp only
            rcases hfc : findCloseAnyFrom afterOpen with _ | afterClose
            · dsimp only
              rw [ih f (by omega) g rest (by omega) (by omega)]
            · have hclose := findCloseAnyFrom_length hfc
              dsimp only
              rw [ih f (by omega) g afterClose (by omega) (by omega)]

theorem stripOpensAux_fuel : ∀ (f g : Nat) (cs : List Char), cs.length ≤ f →
    cs.length ≤ g → stripOpensAux f cs = stripOpensAux g cs := by
  intro f
  induction f using Nat.strong_induction_on with
  | _ f ih =>
    intro g cs hf hg
    rcases cs with _ | ⟨c, rest⟩
    · cases f <;> cases g <;> rfl
    · rcases f with _ | f
      · simp at hf
      · rcases g with _ | g
        · simp at hg
        · rw [stripOpensAux, stripOpensAux]
          simp only [List.length_cons] at hf hg
          rcases hmo : matchOpenTag (c :: rest) with _ | ⟨name, rest2⟩
          · dsimp only
            rw [ih f (by omega) g rest (by omega) (by omega)]
          · have hopen := matchOpenTag_length hmo
            simp only [List.length_cons] at hopen
            dsimp only
            rw [ih f (by omega) g rest2 (by omega) (by omega)]

theorem extractLoopAux_fuel : ∀ (f g : Nat) (cs : List Char), cs.length ≤ f →
    cs.length ≤ g → extractLoopAux f cs = extractLoopAux g cs := by
  intro f
  induction f using Nat.strong_induction_on with
  | _ f ih =>
    intro g cs hf hg
    rcases cs with _ | ⟨c, rest⟩
    · cases f <;> cases g <;> rfl
    · rcases f with _ | f
      · simp at hf
      · rcases g with _ | g
        · simp at hg
        · rw [extractLoopAux, extractLoopAux]
          simp only [List.length_cons] at hf hg
          rcases hmo : matchOpenTag (c :: rest) with _ | ⟨name, afterOpen⟩
          · dsimp only
            rw [ih f (by omega) g rest (by omega) (by omega)]
          · have hopen := matchOpenTag_length hmo
            simp only [List.length_cons] at hopen
            dsimp only
            rcases hfc : findCloseNamed name afterOpen with _ | ⟨mid, afterClose⟩
            · dsimp only
              rw [ih f (by omega) g rest (by omega) (by omega)]
            · have hclose := findCloseNamed_length hfc
              dsimp only
              rw [ih f (by omega) g afterClose (by omega) (by omega)]

/-- The Persona fan-out leaves `retryCount` untouched. -/
theorem personaNode_retryCount (configured : Bool) (invoke : String → InvokeOutcome)
    (s : GraphState) :
    (applyUpdate s (personaNode configured invoke s)).retryCount = s.retryCount := by
  unfold personaNode
  rcases s.parsedInput with _ | pi
  · rfl
  · dsimp only
    split <;> rfl

/-- When the route after the Evaluator is the back-edge to the fan-out, the
Evaluator took the retry branch: `retryCount` was incremented and was below
the bound. -/
theorem evaluate_route_persona (s1 : GraphState)
    (h : routeAfterEvaluate (applyUpdate s1 (directorEvaluateNode s1)) = RouteTarget.persona) :
    (applyUpdate s1 (directorEvaluateNode s1)).retryCount = s1.retryCount + 1 ∧
      s1.retryCount < maxRetries := by
  by_cases h1 : evaluateAllValid s1.personaOutputs
  · exfalso
    simp [directorEvaluateNode, h1, routeAfterEvaluate, applyUpdate] at h
  · by_cases h2 : s1.retryCount ≥ maxRetries
    · exfalso
      simp [directorEvaluateNode, h1, h2, routeAfterEvaluate, applyUpdate] at h
    · constructor
      · simp [directorEvaluateNode, h1, h2, applyUpdate]
      · omega

/-! ## Helper lemmas -/

/-- The format-gate predicate of `directorEvaluateNode` is equivalent to
"every output's trimmed content is non-empty" (the `!output.content` falsy
check is subsumed by the trim check). -/
theorem gate_pred_eq (o : PersonaOutput) :
    (!(o.content == "" || jsTrim o.content == "")) = !(jsTrim o.content == "") := by
  by_cases hc : o.content = ""
  · rw [hc]
    rfl
  · have hb : (o.content == "") = false := by simp [hc]
    rw [hb]
    simp

theorem evaluateAllValid_eq_trim (outputs : List PersonaOutput) :
    evaluateAllValid outputs = outputs.all (fun o => !(jsTrim o.content == "")) := by
  unfold evaluateAllValid
  simp only [gate_pred_eq]

/-- The Director leaves `retryCount` untouched. -/
theorem directorNode_retryCount (env : DirectorEnv) (s : GraphState) :
    (applyUpdate s (directorNode env s)).retryCount = s.retryCount := by
  unfold directorNode
  rcases s.parsedInput with _ | pi <;> rcases s.worldState with _ | w <;> dsimp only
  · rfl
  · rfl
  · rfl
  · split
    · rfl
    · split
      · rfl
      · rcases env.invoke with content | _
        · dsimp only
          rcases extractDelimitedSpan '[' ']' content with _ | span
          · rfl
          · dsimp only
            rcases env.parseArr span with _ | names <;> rfl
        · rfl

/-- The Composer leaves `retryCount` untouched. -/
theorem composerNode_retryCount (env : ComposerEnv) (s : GraphState) :
    (applyUpdate s (composerNode env s)).retryCount = s.retryCount := by
  unfold composerNode
  split
  · rfl
  · split
    · rfl
    · rcases env.invoke with content | _
      · dsimp only
        split <;> rfl
      · rfl

/-- The Composer always produces a `finalOutput` in its partial update. -/
theorem composerNode_finalOutput (env : ComposerEnv) (s : GraphState) :
    ∃ out, (composerNode env s).finalOutput = some out := by
  unfold composerNode
  split
  · exact ⟨_, rfl⟩
  · split
    · exact ⟨_, rfl⟩
    · rcases env.invoke with content | _
      · dsimp only
        split <;> exact ⟨_, rfl⟩
      · exact ⟨_, rfl⟩

/-- The Evaluator keeps `retryCount` below the bound. -/
theorem evaluate_retryCount_le (s1 : GraphState) (h : s1.retryCount ≤ maxRetries) :
    (applyUpdate s1 (directorEvaluateNode s1)).retryCount ≤ maxRetries := by
  by_cases h1 : evaluateAllValid s1.personaOutputs
  · simpa [directorEvaluateNode, h1, applyUpdate] using h
  · by_cases h2 : s1.retryCount ≥ maxRetries
    · simpa [directorEvaluateNode, h1, h2, applyUpdate] using h
    · simp [directorEvaluateNode, h1, h2, applyUpdate]
      omega

/-- When the route after the Evaluator is the Composer, the format check
passed. -/
theorem route_composer_passed (s2 : GraphState)
    (h : routeAfterEvaluate s2 = RouteTarget.composer) : s2.formatCheckPassed = true := by
  unfold routeAfterEvaluate at h
  by_cases hb : s2.formatCheckPassed
  · exact hb
  · simp [hb] at h

/-- The persona/evaluate loop keeps `retryCount` within the bound and always
terminates with the format check passed (possibly force-passed). -/
theorem personaEvalLoop_spec (configured : Bool) (gen : Nat → String → InvokeOutcome) :
    ∀ (n attempt : Nat) (s : GraphState), maxRetries + 1 - s.retryCount ≤ n →
      s.retryCount ≤ maxRetries →
      (personaEvalLoop configured gen attempt s).retryCount ≤ maxRetries ∧
        (personaEvalLoop configured gen attempt s).formatCheckPassed = true := by
  intro n
  induction n with
  | zero =>
    intro attempt s h1 h2
    exfalso
    unfold maxRetries at h1 h2
    omega
  | succ n ih =>
    intro attempt s h1 h2
    rw [personaEvalLoop]
    split
    · rename_i hroute
      have hpass := route_composer_passed _ hroute
      refine ⟨?_, hpass⟩
      have hpr := personaNode_retryCount configured (gen attempt) s
      exact evaluate_retryCount_le _ (by omega)
    · rename_i hroute
      have hstep := evaluate_route_persona
        (applyUpdate s (personaNode configured (gen attempt) s)) hroute
      have hpr := personaNode_retryCount configured (gen attempt) s
      exact ih (attempt + 1) _ (by omega) (by omega)

/-! ## Claim theorems -/

/-- C1: For every run, `retryCount` never exceeds 3 and the run always
produces a `finalOutput`: the retry loop terminates (the Evaluator forces
`formatCheckPassed = true` at the bound) and the terminal Composer update
always carries a `finalOutput`. -/
theorem c1_retry_bound_and_final_output (dEnv : DirectorEnv) (configured : Bool)
    (gen : Nat → String → InvokeOutcome) (cEnv : ComposerEnv) (s : GraphState)
    (h : s.retryCount ≤ maxRetries) :
    (runFromDirector dEnv configured gen cEnv s).retryCount ≤ maxRetries ∧
      ∃ pre out, runFromDirector dEnv configured gen cEnv s
          = applyUpdate pre (composerNode cEnv pre) ∧
        (composerNode cEnv pre).finalOutput = some out ∧
        (runFromDirector dEnv configured gen cEnv s).finalOutput = out := by
  have hd := directorNode_retryCount dEnv s
  have hloop := personaEvalLoop_spec configured gen (maxRetries + 1) 0
    (applyUpdate s (directorNode dEnv s)) (by omega) (by omega)
  constructor
  · rw [runFromDirector, composerNode_retryCount]
    exact hloop.1
  · obtain ⟨out, hout⟩ := composerNode_finalOutput cEnv
      (personaEvalLoop configured gen 0 (applyUpdate s (directorNode dEnv s)))
    refine ⟨_, out, rfl, hout, ?_⟩
    rw [runFromDirector]
    show ((composerNode cEnv _).finalOutput.getD _) = out
    rw [hout]
    rfl

/-- C1 witness: a concrete run from the initial state. -/
theorem c1_retry_bound_and_final_output_witness :
    (({} : GraphState).retryCount ≤ maxRetries) ∧
      ((runFromDirector ⟨false, InvokeOutcome.failure, fun _ => none⟩ false
          (fun _ _ => InvokeOutcome.failure) ⟨false, InvokeOutcome.failure⟩ {}).retryCount
          ≤ maxRetries ∧
        ∃ pre out, runFromDirector ⟨false, InvokeOutcome.failure, fun _ => none⟩ false
            (fun _ _ => InvokeOutcome.failure) ⟨false, InvokeOutcome.failure⟩ {}
            = applyUpdate pre (composerNode ⟨false, InvokeOutcome.failure⟩ pre) ∧
          (composerNode ⟨false, InvokeOutcome.failure⟩ pre).finalOutput = some out ∧
          (runFromDirector ⟨false, InvokeOutcome.failure, fun _ => none⟩ false
            (fun _ _ => InvokeOutcome.failure) ⟨false, InvokeOutcome.failure⟩ {}).finalOutput
            = out) :=
  ⟨by decide, c1_retry_bound_and_final_output ⟨false, InvokeOutcome.failure, fun _ => none⟩
    false (fun _ _ => InvokeOutcome.failure) ⟨false, InvokeOutcome.failure⟩ {} (by decide)⟩

/-- C2 (code bug): a failing gate with `retryCount < 3` triggers a retry, and
the Evaluator returns `personaOutputs: []` intending to clear the channel (its
comment says 清空输出), but the channel's reducer `(x, y) => [...x, ...y]`
appends, so the stale output survives and the next fan-out appends to it
instead of starting from an empty list. -/
theorem c2_retry_does_not_clear :
    (applyUpdate
        { parsedInput := some ⟨[], [], [], "", none⟩, activeCharacters := ["A"],
          personaOutputs := [⟨"A", "", false⟩], retryCount := 0 }
        (directorEvaluateNode
          { parsedInput := some ⟨[], [], [], "", none⟩, activeCharacters := ["A"],
            personaOutputs := [⟨"A", "", false⟩], retryCount := 0 })).formatCheckPassed
        = false ∧
      (applyUpdate
        { parsedInput := some ⟨[], [], [], "", none⟩, activeCharacters := ["A"],
          personaOutputs := [⟨"A", "", false⟩], retryCount := 0 }
        (directorEvaluateNode
          { parsedInput := some ⟨[], [], [], "", none⟩, activeCharacters := ["A"],
            personaOutputs := [⟨"A", "", false⟩], retryCount := 0 })).retryCount = 1 ∧
      (applyUpdate
        { parsedInput := some ⟨[], [], [], "", none⟩, activeCharacters := ["A"],
          personaOutputs := [⟨"A", "", false⟩], retryCount := 0 }
        (directorEvaluateNode
          { parsedInput := some ⟨[], [], [], "", none⟩, activeCharacters := ["A"],
            personaOutputs := [⟨"A", "", false⟩], retryCount := 0 })).personaOutputs
        = [⟨"A", "", false⟩] ∧
      (applyUpdate
        (applyUpdate
          { parsedInput := some ⟨[], [], [], "", none⟩, activeCharacters := ["A"],
            personaOutputs := [⟨"A", "", false⟩], retryCount := 0 }
          (directorEvaluateNode
            { parsedInput := some ⟨[], [], [], "", none⟩, activeCharacters := ["A"],
              personaOutputs := [⟨"A", "", false⟩], retryCount := 0 }))
        (personaNode true (fun _ => InvokeOutcome.success "ok")
          (applyUpdate
            { parsedInput := some ⟨[], [], [], "", none⟩, activeCharacters := ["A"],
              personaOutputs := [⟨"A", "", false⟩], retryCount := 0 }
            (directorEvaluateNode
              { parsedInput := some ⟨[], [], [], "", none⟩, activeCharacters := ["A"],
                personaOutputs := [⟨"A", "", false⟩], retryCount := 0 })))).personaOutputs
        = [⟨"A", "", false⟩, ⟨"A", "ok", true⟩] := by
  decide

/-- C3 counterexample: at `retryCount = 3` an output whose trimmed content is
empty does not fail the gate and does not increment `retryCount`: the node
reports `formatCheckPassed = true` (force-pass) and `retryCount` stays 3,
refuting "passes iff every trimmed content is non-empty" and "an empty output
increments `retryCount` by exactly 1" as unconditional statements. -/
theorem c3_counterexample :
    jsTrim ((⟨"A", "", false⟩ : PersonaOutput).content) = "" ∧
      (applyUpdate { personaOutputs := [⟨"A", "", false⟩], retryCount := 3 }
        (directorEvaluateNode
          { personaOutputs := [⟨"A", "", false⟩], retryCount := 3 })).formatCheckPassed
        = true ∧
      (applyUpdate { personaOutputs := [⟨"A", "", false⟩], retryCount := 3 }
        (directorEvaluateNode
          { personaOutputs := [⟨"A", "", false⟩], retryCount := 3 })).retryCount = 3 := by
  decide

/-- C3 (amended): when `retryCount < 3`, the Evaluator passes the gate iff
every `PersonaOutput`'s trimmed content is non-empty, and a failing gate
increments `retryCount` by exactly 1; at `retryCount ≥ 3` a failing gate
instead force-passes and leaves `retryCount` unchanged. -/
theorem c3_gate_iff (s : GraphState) (h : s.retryCount < maxRetries) :
    ((applyUpdate s (directorEvaluateNode s)).formatCheckPassed
        = s.personaOutputs.all (fun o => !(jsTrim o.content == ""))) ∧
      (s.personaOutputs.all (fun o => !(jsTrim o.content == "")) = false →
        (applyUpdate s (directorEvaluateNode s)).retryCount = s.retryCount + 1) := by
  have h2 : ¬ s.retryCount ≥ maxRetries := by omega
  constructor
  · by_cases h1 : evaluateAllValid s.personaOutputs
    · rw [← evaluateAllValid_eq_trim]
      simp [directorEvaluateNode, h1, applyUpdate]
    · rw [← evaluateAllValid_eq_trim]
      simp [directorEvaluateNode, h1, h2, applyUpdate]
  · intro hfail
    have h1 : ¬ evaluateAllValid s.personaOutputs := by
      rw [evaluateAllValid_eq_trim, hfail]
      simp
    simp [directorEvaluateNode, h1, h2, applyUpdate]

/-- C3 witness: one empty-content output at `retryCount = 0`. -/
theorem c3_gate_iff_witness :
    (({ personaOutputs := [⟨"A", "", false⟩], retryCount := 0 } : GraphState).retryCount
        < maxRetries) ∧
      (((applyUpdate { personaOutputs := [⟨"A", "", false⟩], retryCount := 0 }
          (directorEvaluateNode
            { personaOutputs := [⟨"A", "", false⟩], retryCount := 0 })).formatCheckPassed
          = ({ personaOutputs := [⟨"A", "", false⟩], retryCount := 0 }
              : GraphState).personaOutputs.all (fun o => !(jsTrim o.content == ""))) ∧
        (({ personaOutputs := [⟨"A", "", false⟩], retryCount := 0 }
            : GraphState).personaOutputs.all (fun o => !(jsTrim o.content == "")) = false →
          (applyUpdate { personaOutputs := [⟨"A", "", false⟩], retryCount := 0 }
            (directorEvaluateNode
              { personaOutputs := [⟨"A", "", false⟩], retryCount := 0 })).retryCount = 0 + 1)) :=
  ⟨by decide, c3_gate_iff { personaOutputs := [⟨"A", "", false⟩], retryCount := 0 } (by decide)⟩

/-- C4 counterexample: in model-driven mode the Narrator installs the parsed
`WorldState` wholesale, without re-capping `recentEvents`.  The model reply is
a JSON object whose `recentEvents` holds 11 entries; `JSON.parse` of that
reply (abstracted by `parseWorld`) yields that state, and the node returns it,
so `recentEvents.length = 11 > 10`. -/
theorem c4_counterexample :
    ((applyUpdate
        { parsedInput := some ⟨[], [], [], "", none⟩, worldState := some ⟨"s", "t", [], []⟩ }
        (narratorNode
          ⟨true,
           InvokeOutcome.success "\x7b\"scene\":\"s\",\"time\":\"t\",\"characters\":\x7b\x7d,\"recentEvents\":[\"e1\",\"e2\",\"e3\",\"e4\",\"e5\",\"e6\",\"e7\",\"e8\",\"e9\",\"e10\",\"e11\"]\x7d",
           fun str =>
             if str == "\x7b\"scene\":\"s\",\"time\":\"t\",\"characters\":\x7b\x7d,\"recentEvents\":[\"e1\",\"e2\",\"e3\",\"e4\",\"e5\",\"e6\",\"e7\",\"e8\",\"e9\",\"e10\",\"e11\"]\x7d"
             then some ⟨"s", "t", [],
               ["e1", "e2", "e3", "e4", "e5", "e6", "e7", "e8", "e9", "e10", "e11"]⟩
             else none⟩
          { parsedInput := some ⟨[], [], [], "", none⟩,
            worldState := some ⟨"s", "t", [], []⟩ })).worldState.map
      (fun w => w.recentEvents.length)) = some 11 := by
  decide

/-- C4 (amended): every rule-based Narrator update keeps
`recentEvents.length ≤ 10` and evicts oldest-first (the new list is a suffix
of the old list extended by the new event); the model-driven path adopts the
parsed reply's `recentEvents` without capping. -/
theorem c4_rule_based_cap (env : NarratorEnv) (s : GraphState) (pi : ParsedInput)
    (hpi : s.parsedInput = some pi) (hconf : env.configured = false) :
    ∃ w', (applyUpdate s (narratorNode env s)).worldState = some w' ∧
      w'.recentEvents.length ≤ 10 ∧
      w'.recentEvents <:+ ((match s.worldState with
        | some w => w.recentEvents
        | none => []) ++ ["用户输入: " ++ String.mk (pi.userInput.data.take 50) ++ "..."]) := by
  unfold narratorNode
  rw [hpi, hconf]
  dsimp only
  refine ⟨_, rfl, ?_, ?_⟩
  · simp only [jsSliceLast, List.length_drop]
    omega
  · simp only [jsSliceLast]
    exact List.drop_suffix _ _

/-- C4 witness: a rule-based update on an empty prior state. -/
theorem c4_rule_based_cap_witness :
    (({ parsedInput := some ⟨[], [], [], "", none⟩ } : GraphState).parsedInput
        = some ⟨[], [], [], "", none⟩) ∧
      (⟨false, InvokeOutcome.failure, fun _ => none⟩ : NarratorEnv).configured = false ∧
      ∃ w', (applyUpdate { parsedInput := some ⟨[], [], [], "", none⟩ }
          (narratorNode ⟨false, InvokeOutcome.failure, fun _ => none⟩
            { parsedInput := some ⟨[], [], [], "", none⟩ })).worldState = some w' ∧
        w'.recentEvents.length ≤ 10 ∧
        w'.recentEvents <:+ ((match ({ parsedInput := some ⟨[], [], [], "", none⟩ }
            : GraphState).worldState with
          | some w => w.recentEvents
          | none => []) ++
          ["用户输入: " ++ String.mk (("" : String).data.take 50) ++ "..."]) :=
  ⟨rfl, rfl, c4_rule_based_cap ⟨false, InvokeOutcome.failure, fun _ => none⟩
    { parsedInput := some ⟨[], [], [], "", none⟩ } ⟨[], [], [], "", none⟩ rfl rfl⟩

/-- C5: the fan-out returns exactly one output per active character, in the
same order, each output equal to that character's independent generation; a
character whose invocation throws yields a `formatValid = false` placeholder
(every other slot is untouched: slot `i` depends only on character `i`), and
with no model configured every slot is an invalid placeholder. -/
theorem c5_fanout_one_per_character (configured : Bool) (invoke : String → InvokeOutcome)
    (s : GraphState) (pi : ParsedInput) (hpi : s.parsedInput = some pi)
    (hne : s.activeCharacters ≠ []) :
    ∃ outs, (personaNode configured invoke s).personaOutputs = some outs ∧
      outs.length = s.activeCharacters.length ∧
      (∀ i : Nat, outs[i]? = (s.activeCharacters[i]?).map (fun c =>
        generatePersonaResponse configured invoke c (recordGet s.characterContexts c)
          pi.presetInstructions)) ∧
      (∀ (i : Nat) (c : String), s.activeCharacters[i]? = some c →
        invoke c = InvokeOutcome.failure →
        ∃ o, outs[i]? = some o ∧ o.characterName = c ∧ o.formatValid = false) ∧
      (configured = false → ∀ o ∈ outs, o.formatValid = false) := by
  have hemp : s.activeCharacters.isEmpty = false := by
    simpa [List.isEmpty_iff] using hne
  have hout : (personaNode configured invoke s).personaOutputs
      = some (s.activeCharacters.map (fun charName =>
        generatePersonaResponse configured invoke charName
          (recordGet s.characterContexts charName) pi.presetInstructions)) := by
    simp [personaNode, hpi, hemp]
  refine ⟨_, hout, by simp, ?_, ?_, ?_⟩
  · intro i
    simp [List.getElem?_map]
  · intro i c hc hfail
    refine ⟨generatePersonaResponse configured invoke c (recordGet s.characterContexts c)
        pi.presetInstructions, by simp [List.getElem?_map, hc], ?_, ?_⟩ <;>
      · rcases hconf : configured with _ | _
        · simp [generatePersonaResponse]
        · simp [generatePersonaResponse, hfail]
  · intro hconf o ho
    rw [List.mem_map] at ho
    obtain ⟨c, -, rfl⟩ := ho
    simp [generatePersonaResponse, hconf]

/-- C5 witness: characters `[A, B, C]` where B's invocation throws. -/
theorem c5_fanout_one_per_character_witness :
    (({ parsedInput := some ⟨[], [], [], "", none⟩, activeCharacters := ["A", "B", "C"] }
        : GraphState).parsedInput = some ⟨[], [], [], "", none⟩) ∧
      (({ parsedInput := some ⟨[], [], [], "", none⟩, activeCharacters := ["A", "B", "C"] }
        : GraphState).activeCharacters ≠ []) ∧
      ∃ outs, (personaNode true
          (fun c => if c == "B" then InvokeOutcome.failure else InvokeOutcome.success "hi")
          { parsedInput := some ⟨[], [], [], "", none⟩,
            activeCharacters := ["A", "B", "C"] }).personaOutputs = some outs ∧
        outs.length = (["A", "B", "C"] : List String).length ∧
        (∀ i : Nat, outs[i]? = ((["A", "B", "C"] : List String)[i]?).map (fun c =>
          generatePersonaResponse true
            (fun c => if c == "B" then InvokeOutcome.failure else InvokeOutcome.success "hi") c
            (recordGet [] c) [])) ∧
        (∀ (i : Nat) (c : String), (["A", "B", "C"] : List String)[i]? = some c →
          (if c == "B" then InvokeOutcome.failure else InvokeOutcome.success "hi")
            = InvokeOutcome.failure →
          ∃ o, outs[i]? = some o ∧ o.characterName = c ∧ o.formatValid = false) ∧
        (true = false → ∀ o ∈ outs, o.formatValid = false) :=
  ⟨rfl, by decide, c5_fanout_one_per_character true
    (fun c => if c == "B" then InvokeOutcome.failure else InvokeOutcome.success "hi")
    { parsedInput := some ⟨[], [], [], "", none⟩, activeCharacters := ["A", "B", "C"] }
    ⟨[], [], [], "", none⟩ rfl (by decide)⟩

/-- C6: when the Director model is configured and its reply contains a JSON
array literal that parses to a list of names, `activeCharacters` is exactly
that list filtered to the present characters — unknown or absent names are
dropped while the reply's ordering is preserved (membership characterised
below). -/
theorem c6_director_intersection (env : DirectorEnv) (s : GraphState) (pi : ParsedInput)
    (w : WorldState) (reply span : String) (names : List String)
    (hpi : s.parsedInput = some pi) (hw : s.worldState = some w)
    (hpres : (presentCharacterNames w).isEmpty = false)
    (hconf : env.configured = true) (hinv : env.invoke = InvokeOutcome.success reply)
    (hspan : extractDelimitedSpan '[' ']' reply = some span)
    (hparse : env.parseArr span = some names) :
    (applyUpdate s (directorNode env s)).activeCharacters
        = names.filter (fun c => (presentCharacterNames w).contains c) ∧
      ∀ c, c ∈ (applyUpdate s (directorNode env s)).activeCharacters ↔
        c ∈ names ∧ c ∈ presentCharacterNames w := by
  have hact : (applyUpdate s (directorNode env s)).activeCharacters
      = names.filter (fun c => (presentCharacterNames w).contains c) := by
    unfold directorNode
    rw [hpi, hw]
    dsimp only
    rw [hpres, hconf, hinv]
    dsimp only
    rw [hspan]
    dsimp only
    rw [hparse]
    rfl
  refine ⟨hact, fun c => ?_⟩
  rw [hact]
  simp [List.mem_filter]

/-- C6 witness: present characters `[A, B]`, model reply selecting
`["B", "Z"]`, yielding `activeCharacters = ["B"]`. -/
theorem c6_director_intersection_witness :
    ((applyUpdate
        { parsedInput := some ⟨[], [], [], "", none⟩,
          worldState := some ⟨"s", "t",
            [("A", ⟨"A", true, "p", none⟩), ("B", ⟨"B", true, "p", none⟩)], []⟩ }
        (directorNode
          ⟨true, InvokeOutcome.success "[\"B\",\"Z\"]",
           fun str => if str == "[\"B\",\"Z\"]" then some ["B", "Z"] else none⟩
          { parsedInput := some ⟨[], [], [], "", none⟩,
            worldState := some ⟨"s", "t",
              [("A", ⟨"A", true, "p", none⟩), ("B", ⟨"B", true, "p", none⟩)], []⟩ })).activeCharacters
        = (["B", "Z"] : List String).filter (fun c =>
            (presentCharacterNames ⟨"s", "t",
              [("A", ⟨"A", true, "p", none⟩), ("B", ⟨"B", true, "p", none⟩)], []⟩).contains c)) ∧
      ((["B", "Z"] : List String).filter (fun c =>
          (presentCharacterNames ⟨"s", "t",
            [("A", ⟨"A", true, "p", none⟩), ("B", ⟨"B", true, "p", none⟩)], []⟩).contains c)
        = ["B"]) :=
  ⟨(c6_director_intersection
      ⟨true, InvokeOutcome.success "[\"B\",\"Z\"]",
       fun str => if str == "[\"B\",\"Z\"]" then some ["B", "Z"] else none⟩
      { parsedInput := some ⟨[], [], [], "", none⟩,
        worldState := some ⟨"s", "t",
          [("A", ⟨"A", true, "p", none⟩), ("B", ⟨"B", true, "p", none⟩)], []⟩ }
      ⟨[], [], [], "", none⟩
      ⟨"s", "t", [("A", ⟨"A", true, "p", none⟩), ("B", ⟨"B", true, "p", none⟩)], []⟩
      "[\"B\",\"Z\"]" "[\"B\",\"Z\"]" ["B", "Z"] rfl rfl (by decide) rfl rfl (by decide)
      (by decide)).1,
   by decide⟩

/-- C7 counterexample: `stripXmlTags` removes complete spans and opening
tags, but a stray closing tag is not tag markup it strips — on the message
`"</foo>Hello"` the dialogue text keeps `</foo>`, so not **all** tag markup is
stripped. -/
theorem c7_counterexample :
    stripXmlTags "</foo>Hello" = "</foo>Hello" ∧
      hasTagMarkup (stripXmlTags "</foo>Hello").data = true ∧
      (parserNode none { rawMessages := [⟨"user", "</foo>Hello"⟩] }).parsedInput
        = some { presetInstructions := [], characterSettings := [],
                 chatHistory := [⟨"user", "</foo>Hello"⟩], userInput := "</foo>Hello",
                 tableData := none } := by
  decide

/-- C7 (amended): the Parser removes complete tag spans and remaining opening
tags from a message before treating it as dialogue (stray closing tags
survive); in particular `"<fiction_style>X</fiction_style>Hello"` yields
`presetInstructions.fiction_style = "X"` and the dialogue text `"Hello"` with
the recognized tag removed. -/
theorem c7_example_parse :
    (parserNode none
        { rawMessages := [⟨"user", "<fiction_style>X</fiction_style>Hello"⟩] }).parsedInput
        = some { presetInstructions := [("fiction_style", "X")], characterSettings := [],
                 chatHistory := [⟨"user", "Hello"⟩], userInput := "Hello",
                 tableData := none } ∧
      recordGet [("fiction_style", "X")] "fiction_style" = "X" ∧
      stripXmlTags "<fiction_style>X</fiction_style>Hello" = "Hello" := by
  decide

/-- C8: in model-driven mode, whenever the Narrator's invocation fails, or
its reply has no brace-delimited JSON substring, or `JSON.parse` of that
substring throws, the Narrator returns the prior `worldState` unchanged. -/
theorem c8_narrator_keeps_prior_state (env : NarratorEnv) (s : GraphState) (pi : ParsedInput)
    (hpi : s.parsedInput = some pi) (hconf : env.configured = true)
    (hfail : env.invoke = InvokeOutcome.failure ∨
      ∃ content, env.invoke = InvokeOutcome.success content ∧
        (extractDelimitedSpan '\x7b' '\x7d' content = none ∨
          ∃ str, extractDelimitedSpan '\x7b' '\x7d' content = some str ∧
            env.parseWorld str = none)) :
    (applyUpdate s (narratorNode env s)).worldState = s.worldState := by
  have hws : ∀ u : GraphUpdate, u.worldState = some s.worldState →
      (applyUpdate s u).worldState = s.worldState := by
    intro u hu
    show (match u.worldState with
      | some (some w) => some w
      | some none => s.worldState
      | none => s.worldState) = s.worldState
    rw [hu]
    rcases s.worldState with _ | w <;> rfl
  rcases hfail with hf | ⟨content, hc, hf2⟩
  · refine hws _ ?_
    unfold narratorNode
    rw [hpi, hconf, hf]
    rfl
  · rcases hf2 with hnone | ⟨str, hsp, hp⟩
    · refine hws _ ?_
      unfold narratorNode
      rw [hpi, hconf, hc]
      dsimp only
      rw [hnone]
      rfl
    · refine hws _ ?_
      unfold narratorNode
      rw [hpi, hconf, hc]
      dsimp only
      rw [hsp]
      dsimp only
      rw [hp]
      rfl

/-- C8 witness: a failing invocation on a populated prior state. -/
theorem c8_narrator_keeps_prior_state_witness :
    (({ parsedInput := some ⟨[], [], [], "", none⟩, worldState := some ⟨"s", "t", [], ["e"]⟩ }
        : GraphState).parsedInput = some ⟨[], [], [], "", none⟩) ∧
      (⟨true, InvokeOutcome.failure, fun _ => none⟩ : NarratorEnv).configured = true ∧
      (applyUpdate
          { parsedInput := some ⟨[], [], [], "", none⟩, worldState := some ⟨"s", "t", [], ["e"]⟩ }
          (narratorNode ⟨true, InvokeOutcome.failure, fun _ => none⟩
            { parsedInput := some ⟨[], [], [], "", none⟩,
              worldState := some ⟨"s", "t", [], ["e"]⟩ })).worldState
        = ({ parsedInput := some ⟨[], [], [], "", none⟩,
             worldState := some ⟨"s", "t", [], ["e"]⟩ } : GraphState).worldState :=
  ⟨rfl, rfl, c8_narrator_keeps_prior_state ⟨true, InvokeOutcome.failure, fun _ => none⟩
    { parsedInput := some ⟨[], [], [], "", none⟩, worldState := some ⟨"s", "t", [], ["e"]⟩ }
    ⟨[], [], [], "", none⟩ rfl rfl (Or.inl rfl)⟩

/-- When the Evaluator routes to the Composer on the first attempt, the loop
is a single persona/evaluate pass. -/
theorem personaEvalLoop_pass (configured : Bool) (gen : Nat → String → InvokeOutcome)
    (attempt : Nat) (s : GraphState)
    (h : routeAfterEvaluate (applyUpdate (applyUpdate s (personaNode configured (gen attempt) s))
        (directorEvaluateNode (applyUpdate s (personaNode configured (gen attempt) s))))
      = RouteTarget.composer) :
    personaEvalLoop configured gen attempt s
      = applyUpdate (applyUpdate s (personaNode configured (gen attempt) s))
          (directorEvaluateNode (applyUpdate s (personaNode configured (gen attempt) s))) := by
  rw [personaEvalLoop]
  split
  · rfl
  · rename_i hr
    rw [h] at hr
    exact absurd hr (by simp)

/-- C9: a run whose `WorldState` has zero present characters ends with the
fixed "no replies" sentinel; the Director selects nobody before any model
use, the fan-out maps over an empty list, and the Composer returns the
sentinel before its model branch — the result does not depend on any of the
abstract model parameters (`dEnv`, `gen`, `cEnv`), which formalises that no
per-character generation and no Persona or Composer model call contributes. -/
theorem c9_no_present_characters_sentinel (dEnv : DirectorEnv) (configured : Bool)
    (gen : Nat → String → InvokeOutcome) (cEnv : ComposerEnv) (s : GraphState)
    (pi : ParsedInput) (w : WorldState)
    (hpi : s.parsedInput = some pi) (hw : s.worldState = some w)
    (hnone : presentCharacterNames w = []) (hout : s.personaOutputs = []) :
    (runFromDirector dEnv configured gen cEnv s).finalOutput = "[没有角色回复]" := by
  have hdir : directorNode dEnv s
      = { activeCharacters := some [], characterContexts := some [] } := by
    unfold directorNode
    rw [hpi, hw]
    dsimp only
    rw [hnone]
    rfl
  rw [runFromDirector]
  set s1 := applyUpdate s (directorNode dEnv s) with hs1
  have h1a : s1.activeCharacters = [] := by
    rw [hs1]
    show (directorNode dEnv s).activeCharacters.getD s.activeCharacters = []
    rw [hdir]
    rfl
  have h1p : s1.parsedInput = some pi := by
    rw [hs1]
    show (match (directorNode dEnv s).parsedInput with
      | some p => some p
      | none => s.parsedInput) = some pi
    rw [hdir]
    exact hpi
  have h1o : s1.personaOutputs = [] := by
    rw [hs1]
    show s.personaOutputs ++ (directorNode dEnv s).personaOutputs.getD [] = []
    rw [hdir, hout]
    rfl
  have hpn : personaNode configured (gen 0) s1 = { personaOutputs := some [] } := by
    unfold personaNode
    rw [h1p]
    dsimp only
    rw [h1a]
    rfl
  set s2 := applyUpdate s1 (personaNode configured (gen 0) s1) with hs2
  have h2o : s2.personaOutputs = [] := by
    rw [hs2]
    show s1.personaOutputs ++ (personaNode configured (gen 0) s1).personaOutputs.getD [] = []
    rw [hpn, h1o]
    rfl
  have heval : directorEvaluateNode s2 = { formatCheckPassed := some true } := by
    unfold directorEvaluateNode
    rw [h2o]
    rfl
  set s3 := applyUpdate s2 (directorEvaluateNode s2) with hs3
  have h3f : s3.formatCheckPassed = true := by
    rw [hs3]
    show (directorEvaluateNode s2).formatCheckPassed.getD s2.formatCheckPassed = true
    rw [heval]
    rfl
  have h3o : s3.personaOutputs = [] := by
    rw [hs3]
    show s2.personaOutputs ++ (directorEvaluateNode s2).personaOutputs.getD [] = []
    rw [heval, h2o]
    rfl
  have hroute : routeAfterEvaluate s3 = RouteTarget.composer := by
    unfold routeAfterEvaluate
    rw [h3f]
    rfl
  have hloop : personaEvalLoop configured gen 0 s1 = s3 :=
    personaEvalLoop_pass configured gen 0 s1 (by rw [← hs2, ← hs3] at *; exact hroute)
  rw [hloop]
  have hcomp : composerNode cEnv s3 = { finalOutput := some "[没有角色回复]" } := by
    unfold composerNode
    rw [h3o]
    rfl
  show (composerNode cEnv s3).finalOutput.getD s3.finalOutput = "[没有角色回复]"
  rw [hcomp]
  rfl

/-- C9 witness: a configured Director/Persona/Composer stack and one absent
character — the run still returns the sentinel. -/
theorem c9_no_present_characters_sentinel_witness :
    (({ parsedInput := some ⟨[], [], [], "", none⟩,
        worldState := some ⟨"s", "t", [("A", ⟨"A", false, "p", none⟩)], []⟩ }
        : GraphState).parsedInput = some ⟨[], [], [], "", none⟩) ∧
      (({ parsedInput := some ⟨[], [], [], "", none⟩,
          worldState := some ⟨"s", "t", [("A", ⟨"A", false, "p", none⟩)], []⟩ }
          : GraphState).worldState = some ⟨"s", "t", [("A", ⟨"A", false, "p", none⟩)], []⟩) ∧
      presentCharacterNames ⟨"s", "t", [("A", ⟨"A", false, "p", none⟩)], []⟩ = [] ∧
      (runFromDirector ⟨true, InvokeOutcome.success "[\"A\"]", fun _ => some ["A"]⟩ true
          (fun _ _ => InvokeOutcome.success "text") ⟨true, InvokeOutcome.success "fused"⟩
          { parsedInput := some ⟨[], [], [], "", none⟩,
            worldState := some ⟨"s", "t", [("A", ⟨"A", false, "p", none⟩)], []⟩ }).finalOutput
        = "[没有角色回复]" :=
  ⟨rfl, rfl, by decide,
   c9_no_present_characters_sentinel ⟨true, InvokeOutcome.success "[\"A\"]", fun _ => some ["A"]⟩
     true (fun _ _ => InvokeOutcome.success "text") ⟨true, InvokeOutcome.success "fused"⟩
     { parsedInput := some ⟨[], [], [], "", none⟩,
       worldState := some ⟨"s", "t", [("A", ⟨"A", false, "p", none⟩)], []⟩ }
     ⟨[], [], [], "", none⟩ ⟨"s", "t", [("A", ⟨"A", false, "p", none⟩)], []⟩
     rfl rfl (by decide) rfl⟩

/-- Trimming keeps a leading non-whitespace character's list non-empty. -/
theorem jsTrimList_cons_ne {c : Char} {t : List Char} (h : isJsWhitespace c = false) :
    jsTrimList (c :: t) ≠ [] := by
  unfold jsTrimList
  intro hcontra
  rw [List.reverse_eq_nil_iff, List.dropWhile_eq_nil_iff] at hcontra
  have hcmem : c ∈ ((c :: t).dropWhile isJsWhitespace).reverse := by
    rw [List.dropWhile_cons]
    simp [h]
  exact absurd (hcontra c hcmem) (by simp [h])

theorem jsTrim_ne_empty {t : String} (h : jsTrimList t.data ≠ []) : jsTrim t ≠ "" := by
  unfold jsTrim
  intro hc
  apply h
  have hd := congrArg String.data hc
  simpa using hd

/-- The "model unconfigured" placeholder never trims to the empty string. -/
theorem placeholder_unconfigured_trim_ne (c : String) :
    jsTrim ("[" ++ c ++ " 无法回复 - 模型未配置]") ≠ "" := by
  apply jsTrim_ne_empty
  have hdata : ("[" ++ c ++ " 无法回复 - 模型未配置]").data
      = '[' :: (c.data ++ " 无法回复 - 模型未配置]".data) := by
    simp [String.data_append]
  rw [hdata]
  exact jsTrimList_cons_ne (by decide)

/-- The "generation threw" placeholder never trims to the empty string. -/
theorem placeholder_error_trim_ne (c : String) :
    jsTrim ("[" ++ c ++ " 生成出错]") ≠ "" := by
  apply jsTrim_ne_empty
  have hdata : ("[" ++ c ++ " 生成出错]").data
      = '[' :: (c.data ++ " 生成出错]".data) := by
    simp [String.data_append]
  rw [hdata]
  exact jsTrimList_cons_ne (by decide)

/-- C10: the Evaluator's gate inspects only trimmed content (never
`formatValid`), and every failure placeholder has non-empty content, so over a
fan-out result the gate fails iff the model is configured and some character's
invocation actually returned a reply that trims to the empty string — an
invocation failure or an unconfigured model alone never fails the gate (and
hence never triggers a retry). -/
theorem c10_gate_ignores_placeholders (configured : Bool) (invoke : String → InvokeOutcome)
    (chars : List String) (contexts preset : List (String × String)) :
    evaluateAllValid (chars.map (fun c =>
        generatePersonaResponse configured invoke c (recordGet contexts c) preset)) = false
      ↔ configured = true ∧ ∃ c ∈ chars, ∃ content,
          invoke c = InvokeOutcome.success content ∧ jsTrim content = "" := by
  rw [evaluateAllValid_eq_trim, List.all_eq_false]
  constructor
  · rintro ⟨o, hmem, ho⟩
    rw [List.mem_map] at hmem
    obtain ⟨c, hcmem, rfl⟩ := hmem
    have hc : jsTrim (generatePersonaResponse configured invoke c
        (recordGet contexts c) preset).content = "" := by
      simpa using ho
    rcases hconf : configured with _ | _
    · rw [hconf] at hc
      simp only [generatePersonaResponse] at hc
      exact absurd hc (placeholder_unconfigured_trim_ne c)
    · rcases hinv : invoke c with content | _
      · rw [hconf] at hc
        simp only [generatePersonaResponse, hinv] at hc
        exact ⟨rfl, c, hcmem, content, hinv, hc⟩
      · rw [hconf] at hc
        simp only [generatePersonaResponse, hinv] at hc
        exact absurd hc (placeholder_error_trim_ne c)
  · rintro ⟨hconf, c, hcmem, content, hinv, htrim⟩
    refine ⟨_, List.mem_map.mpr ⟨c, hcmem, rfl⟩, ?_⟩
    rw [hconf]
    simp only [generatePersonaResponse, hinv]
    simpa using htrim
